import Mathlib

/-!
# Galaxy Runner — formal model of the core game logic

A shallow embedding of the core of the tunnel-runner game (`main.py`,
`transforms.py`): the procedural path generator, the grid/tile geometry and
collision check, the perspective projection, the per-frame update, and the
reset routine.  Python floats are modelled as exact rationals (`ℚ`), grid
coordinates as integers, and the RNG as an explicit list of draws.
-/

namespace Galaxy

/-- Source `V_NB_LINES` from `main.py`: number of vertical grid lines. -/
def V_NB_LINES : ℕ := 8

/-- Source `NB_TILES` from `main.py`: target number of simultaneous tiles. -/
def NB_TILES : ℕ := 16

/-- Source `SPEED` from `main.py` (`0.8`): forward speed. -/
def SPEED : ℚ := 8/10

/-- Source `V_LINES_SPACING` from `main.py` (`0.4`). -/
def V_LINES_SPACING : ℚ := 4/10

/-- Source `H_LINES_SPACING` from `main.py` (`0.15`). -/
def H_LINES_SPACING : ℚ := 15/100

/-- Source `SHIP_WIDTH` from `main.py` (`0.1`). -/
def SHIP_WIDTH : ℚ := 1/10

/-- Source `SHIP_HEIGHT` from `main.py` (`0.035`). -/
def SHIP_HEIGHT : ℚ := 35/1000

/-- Source `SHIP_BASE_Y` from `main.py` (`0.04`). -/
def SHIP_BASE_Y : ℚ := 4/100

/-- Source `start_index = -int(V_NB_LINES / 2) + 1` computed in
`generate_tiles_coordinates` (and in the line-update methods). -/
def start_index : ℤ := -(V_NB_LINES / 2 : ℕ) + 1

/-- Source `end_index = start_index + V_NB_LINES - 1` from
`generate_tiles_coordinates`. -/
def end_index : ℤ := start_index + V_NB_LINES - 1

/-- The direction value actually used by one iteration of the extend loop of
`generate_tiles_coordinates`: the random draw `r`, overridden to `1` (right)
when `last_x <= start_index` and to `2` (left) when `last_x >= end_index`
(the two `if` statements at lines 399-402 of `main.py`; their conditions are
mutually exclusive since `start_index < end_index`). -/
def effectiveDir (lastX : ℤ) (r : ℕ) : ℕ :=
  let r1 := if lastX ≤ start_index then 1 else r
  if lastX ≥ end_index then 2 else r1

/-- One iteration of the extend loop of `generate_tiles_coordinates`
(lines 388-420 of `main.py`): returns the tiles appended during the
iteration together with the updated `(last_x, last_y)` running position.
The trailing `last_y += 1` of the source is reflected in the returned row. -/
def genIter (lastX lastY : ℤ) (r : ℕ) : List (ℤ × ℤ) × ℤ × ℤ :=
  if effectiveDir lastX r = 1 then
    ([(lastX, lastY), (lastX + 1, lastY), (lastX + 1, lastY + 1)],
      lastX + 1, lastY + 1 + 1)
  else if effectiveDir lastX r = 2 then
    ([(lastX, lastY), (lastX - 1, lastY), (lastX - 1, lastY + 1)],
      lastX - 1, lastY + 1 + 1)
  else
    ([(lastX, lastY)], lastX, lastY + 1)

/-- The extend loop `for i in range(len(tiles_coordinates), NB_TILES)` of
`generate_tiles_coordinates`: `n` is the iteration count (computed once,
before any tile is appended), `draws` the successive values of
`random.randint(0, 2)`.  Returns the concatenation of all appended tiles. -/
def genLoop : ℕ → List ℕ → ℤ → ℤ → List (ℤ × ℤ)
  | 0, _, _, _ => []
  | n + 1, draws, lastX, lastY =>
    let step := genIter lastX lastY (draws.headD 0)
    step.1 ++ genLoop n draws.tail step.2.1 step.2.2

/-- The running-position seed of `generate_tiles_coordinates` (lines 372-384
of `main.py`): `(last_x, last_y)` continue from the column, and row + 1, of the last
surviving tile, or stay at the initial `(0, 0)` when no tile survives. -/
def genSeed (trimmed : List (ℤ × ℤ)) : ℤ × ℤ :=
  match trimmed.getLast? with
  | some c => (c.1, c.2 + 1)
  | none => (0, 0)

/-- Source `generate_tiles_coordinates` from `main.py` (lines 357-420), as a function
of the prior tile list, the current row counter `current_y_loop`, and the
random draws: trim the tiles behind the current row (the backwards deletion
loop is a stable filter), seed the running position from the last surviving
tile (or `(0, 0)`), and run the extend loop. -/
def generate_tiles_coordinates (tiles : List (ℤ × ℤ)) (currentYLoop : ℤ)
    (draws : List ℕ) : List (ℤ × ℤ) :=
  let trimmed := tiles.filter fun t => currentYLoop ≤ t.2
  trimmed ++
    genLoop (NB_TILES - trimmed.length) draws (genSeed trimmed).1
      (genSeed trimmed).2

/-- Source `pre_fill_tiles_coordinates` from `main.py` (lines 347-355): append the
ten startup tiles `(0, 0) … (0, 9)`. -/
def pre_fill_tiles_coordinates (tiles : List (ℤ × ℤ)) : List (ℤ × ℤ) :=
  tiles ++ (List.range 10).map fun i => ((0 : ℤ), (i : ℤ))

/-- The mutable state of `MainWidget` that the core logic reads and writes
(floats as `ℚ`, grid coordinates as `ℤ`; graphics objects, sounds and UI
strings are omitted). -/
structure MainWidget where
  width : ℚ
  height : ℚ
  perspective_point_x : ℚ
  perspective_point_y : ℚ
  current_offset_y : ℚ
  current_y_loop : ℤ
  current_speed_x : ℚ
  current_offset_x : ℚ
  tiles_coordinates : List (ℤ × ℤ)
  ship_coordinates : (ℚ × ℚ) × (ℚ × ℚ) × (ℚ × ℚ)
  state_game_over : Bool
  state_game_has_started : Bool
deriving DecidableEq

/-- Python `int()` conversion applied to a rational: truncation toward
zero. -/
def pyInt (q : ℚ) : ℤ := if 0 ≤ q then ⌊q⌋ else ⌈q⌉

/-- The depth factor computed by `transform_perspective` in `transforms.py`
(lines 79-88): the clamped linear depth `lin_y`, then
`((perspective_point_y - lin_y) / perspective_point_y) ** 4`. -/
def factor_y (w : MainWidget) (y : ℚ) : ℚ :=
  let linY := y * w.perspective_point_y / w.height
  let linY := if linY > w.perspective_point_y then w.perspective_point_y else linY
  ((w.perspective_point_y - linY) / w.perspective_point_y) ^ 4

/-- The exact (pre-truncation) screen abscissa of `transform_perspective`:
`tr_x = perspective_point_x + diff_x * factor_y` (lines 84-91). -/
def tr_x_exact (w : MainWidget) (x y : ℚ) : ℚ :=
  w.perspective_point_x + (x - w.perspective_point_x) * factor_y w y

/-- The exact (pre-truncation) screen ordinate of `transform_perspective`:
`tr_y = perspective_point_y - factor_y * perspective_point_y` (line 92). -/
def tr_y_exact (w : MainWidget) (y : ℚ) : ℚ :=
  w.perspective_point_y - factor_y w y * w.perspective_point_y

/-- Source `transform_perspective` from `transforms.py` (lines 56-94): the exact
screen point, truncated to integers by `int()`. -/
def transform_perspective (w : MainWidget) (x y : ℚ) : ℤ × ℤ :=
  (pyInt (tr_x_exact w x y), pyInt (tr_y_exact w y))

/-- Source `get_line_x_from_index` from `main.py` (lines 492-506); the index is a
rational so that both tile corners `ti_x` and `ti_x + 1` can be passed. -/
def get_line_x_from_index (w : MainWidget) (index : ℚ) : ℚ :=
  let central_line_x := w.perspective_point_x
  let spacing := V_LINES_SPACING * w.width
  let offset := index - (1 : ℚ)/2
  central_line_x + offset * spacing + w.current_offset_x

/-- Source `get_line_y_from_index` from `main.py` (lines 508-520). -/
def get_line_y_from_index (w : MainWidget) (index : ℚ) : ℚ :=
  let spacing_y := H_LINES_SPACING * w.height
  index * spacing_y - w.current_offset_y

/-- Source `get_tile_coordinates` from `main.py` (lines 422-440): re-base the tile
row by `current_y_loop`, then convert to world coordinates. -/
def get_tile_coordinates (w : MainWidget) (tiX tiY : ℤ) : ℚ × ℚ :=
  let tiY := tiY - w.current_y_loop
  (get_line_x_from_index w tiX, get_line_y_from_index w tiY)

/-- Source `check_ship_collision_with_tile` from `main.py` (lines 306-329): true
when one of the three ship vertices lies inside the world bounds of the tile. -/
def check_ship_collision_with_tile (w : MainWidget) (tiX tiY : ℤ) : Bool :=
  let cmin := get_tile_coordinates w tiX tiY
  let cmax := get_tile_coordinates w (tiX + 1) (tiY + 1)
  let inside : ℚ × ℚ → Bool := fun p =>
    decide (cmin.1 ≤ p.1 ∧ p.1 ≤ cmax.1 ∧ cmin.2 ≤ p.2 ∧ p.2 ≤ cmax.2)
  inside w.ship_coordinates.1 || inside w.ship_coordinates.2.1 ||
    inside w.ship_coordinates.2.2

/-- The tile loop of `check_ship_collisions` (lines 294-304 of `main.py`):
note the `return False` — not a `continue` — on the first tile whose row
exceeds `current_y_loop + 1`. -/
def checkCollisionsAux (w : MainWidget) : List (ℤ × ℤ) → Bool
  | [] => false
  | t :: rest =>
    if t.2 > w.current_y_loop + 1 then false
    else if check_ship_collision_with_tile w t.1 t.2 then true
    else checkCollisionsAux w rest

/-- Source `check_ship_collisions` from `main.py` (lines 284-304). -/
def check_ship_collisions (w : MainWidget) : Bool :=
  checkCollisionsAux w w.tiles_coordinates

/-- Source `update_ship` from `main.py` (lines 248-278): recompute the three ship
vertices from the viewport (the perspective-transformed `ship.points` are
graphics state and are omitted). -/
def update_ship (w : MainWidget) : MainWidget :=
  let center_x := w.width / 2
  let base_y := SHIP_BASE_Y * w.height
  let half_width := SHIP_WIDTH * w.width / 2
  let ship_height := SHIP_HEIGHT * w.height
  { w with ship_coordinates :=
      ((center_x - half_width, base_y),
       (center_x, base_y + ship_height),
       (center_x + half_width, base_y)) }

/-- The `while self.current_offset_y >= spacing_y` loop of `update`
(lines 614-618 of `main.py`), run with explicit fuel: each pass subtracts one
row spacing, increments `current_y_loop`, and regenerates the tiles (one
sub-list of `draws` per crossing). -/
def crossRows : ℕ → MainWidget → List (List ℕ) → MainWidget
  | 0, w, _ => w
  | k + 1, w, draws =>
    let spacing_y := H_LINES_SPACING * w.height
    if spacing_y ≤ w.current_offset_y then
      let w := { w with current_offset_y := w.current_offset_y - spacing_y,
                        current_y_loop := w.current_y_loop + 1 }
      let newTiles :=
        generate_tiles_coordinates w.tiles_coordinates w.current_y_loop
          (draws.headD [])
      let w := { w with tiles_coordinates := newTiles }
      crossRows k w draws.tail
    else w

/-- Fuel sufficient for the row-crossing `while` loop when the spacing is
positive: the loop body runs exactly `⌊offset / spacing⌋` times (`toNat`
clips the already-drained case).  For non-positive spacing the source loop
would not terminate, so every theorem below assumes `0 < height`. -/
def rowFuel (spacing offset : ℚ) : ℕ := (⌊offset / spacing⌋).toNat

/-- The physics section of `update` (lines 607-622 of `main.py`): forward
offset accumulation, the row-crossing loop, and horizontal offset
accumulation, all guarded by `not state_game_over and state_game_has_started`. -/
def updatePhysics (w : MainWidget) (dt : ℚ) (draws : List (List ℕ)) :
    MainWidget :=
  if !w.state_game_over && w.state_game_has_started then
    let time_factor := dt * 60
    let speed_y := SPEED * w.height / 100
    let w := { w with current_offset_y := w.current_offset_y + speed_y * time_factor }
    let spacing_y := H_LINES_SPACING * w.height
    let w := crossRows (rowFuel spacing_y w.current_offset_y) w draws
    let speed_x := w.current_speed_x * w.width / 100
    { w with current_offset_x := w.current_offset_x + speed_x * time_factor }
  else w

/-- Source `update_tiles` from `main.py` (lines 442-474): the geometry it
computes is written only to graphics objects, but its loop reads
`tiles_coordinates[i]` for every `i < NB_TILES`, so a tile list shorter than
`NB_TILES` raises `IndexError` and aborts the frame before the game-over
check runs — modelled as a guard returning `none` on that error path and the
unchanged state otherwise. -/
def update_tiles (w : MainWidget) : Option MainWidget :=
  if w.tiles_coordinates.length < NB_TILES then none else some w

/-- Source `update` from `main.py` (lines 584-634), restricted to game state:
`update_tiles` acts as the `IndexError` guard (lines 601-603;
`update_vertical_lines` and `update_horizontal_lines` index only the eight
line objects, with Python negative-index wrap-around, and cannot fail), then
`update_ship` recomputes the ship vertices, the guarded physics runs, and
finally the game-over check
`if not self.check_ship_collisions() and not self.state_game_over`.
A `none` result is the aborted frame: no field of the widget changes. -/
def update (w : MainWidget) (dt : ℚ) (draws : List (List ℕ)) :
    Option MainWidget :=
  match update_tiles w with
  | none => none
  | some w =>
    let w := update_ship w
    let w := updatePhysics w dt draws
    if !check_ship_collisions w && !w.state_game_over then
      some { w with state_game_over := true }
    else some w

/-- Source `reset_game` from `main.py` (lines 192-218): zero the motion state,
rebuild the tiles as pre-fill followed by one generation pass (run with the
already-reset `current_y_loop = 0`), and clear the game-over flag. -/
def reset_game (w : MainWidget) (draws : List ℕ) : MainWidget :=
  let w := { w with current_offset_y := 0, current_y_loop := 0,
                    current_speed_x := 0, current_offset_x := 0 }
  let w := { w with tiles_coordinates := [] }
  let w := { w with tiles_coordinates :=
      pre_fill_tiles_coordinates w.tiles_coordinates }
  let w := { w with tiles_coordinates :=
      generate_tiles_coordinates w.tiles_coordinates w.current_y_loop draws }
  { w with state_game_over := false }

/-- The forward-motion fragment of `update` in isolation, acting on the pair
(`current_offset_y`, `current_y_loop`): the generality needed to state
frame-rate independence.  `drainFuel` is the row-crossing `while` loop
stripped of the tile regeneration (which does not feed back into the loop). -/
def drainFuel : ℕ → ℚ → ℚ → ℤ → ℚ × ℤ
  | 0, _, o, n => (o, n)
  | k + 1, s, o, n =>
    if s ≤ o then drainFuel k s (o - s) (n + 1) else (o, n)

/-- The row-crossing `while` loop on the offset/row pair, with the exact
sufficient fuel (see `rowFuel`). -/
def whileDrain (s o : ℚ) (n : ℤ) : ℚ × ℤ := drainFuel (rowFuel s o) s o n

/-- The forward-motion step of one `update` call (lines 609-616 of `main.py`) on
the offset/row pair: accumulate `speed_y * time_factor`, then drain whole
rows. -/
def motionStep (height : ℚ) (st : ℚ × ℤ) (dt : ℚ) : ℚ × ℤ :=
  let time_factor := dt * 60
  let speed_y := SPEED * height / 100
  whileDrain (H_LINES_SPACING * height) (st.1 + speed_y * time_factor) st.2

/-- The forward-motion step iterated over a list of frame times. -/
def runMotion (height : ℚ) (st : ℚ × ℤ) (dts : List ℚ) : ℚ × ℤ :=
  dts.foldl (motionStep height) st

/-- Modelled from the spec, §4.1 steps 1-6 (the formula as worded in the claim, for
comparison with the source function `transform_perspective`): clamp
`linY = worldY * vanishingPointY / viewportHeight` to at most
`vanishingPointY`, raise `(vanishingPointY - linY) / vanishingPointY` to the
4th power, form the screen point, and truncate toward zero. -/
def transformPerspectiveSpec (w : MainWidget) (x y : ℚ) : ℤ × ℤ :=
  let linY := min (y * w.perspective_point_y / w.height) w.perspective_point_y
  let f := ((w.perspective_point_y - linY) / w.perspective_point_y) ^ 4
  (pyInt (w.perspective_point_x + (x - w.perspective_point_x) * f),
   pyInt (w.perspective_point_y - f * w.perspective_point_y))

/-- Rows are non-decreasing in storage order. -/
def rowsSorted (l : List (ℤ × ℤ)) : Prop :=
  l.Pairwise fun a b => a.2 ≤ b.2

instance (l : List (ℤ × ℤ)) : Decidable (rowsSorted l) := by
  unfold rowsSorted; infer_instance

/-- Modelled from the spec, §4.4 (comparison predicate for the collision
check): some stored tile whose row is at most `current_y_loop + 1` has world
bounds containing one of the three ship vertices. -/
def specSupported (w : MainWidget) : Prop :=
  ∃ t ∈ w.tiles_coordinates, t.2 ≤ w.current_y_loop + 1 ∧
    check_ship_collision_with_tile w t.1 t.2 = true

instance (w : MainWidget) : Decidable (specSupported w) := by
  unfold specSupported; infer_instance

/-- A concrete widget state for witnesses and counterexamples: the startup
window of the source (900 × 400) with the vanishing point at mid-width and
`0.75 * height` (as bound in `menu.kv`), all motion state zero, before the
first start command. -/
def demoWidget : MainWidget where
  width := 900
  height := 400
  perspective_point_x := 450
  perspective_point_y := 300
  current_offset_y := 0
  current_y_loop := 0
  current_speed_x := 0
  current_offset_x := 0
  tiles_coordinates := []
  ship_coordinates := ((405, 16), (450, 30), (495, 16))
  state_game_over := false
  state_game_has_started := false

/-- A state with a full 16-tile track at column 3 — inside the corridor but
away from the centred ship — and the game not yet started: the source
`update` runs through `update_tiles` without error here, all the way to the
game-over check. -/
def offTrackWidget : MainWidget :=
  { demoWidget with tiles_coordinates :=
      [(3, 0), (3, 1), (3, 2), (3, 3), (3, 4), (3, 5), (3, 6), (3, 7),
       (3, 8), (3, 9), (3, 10), (3, 11), (3, 12), (3, 13), (3, 14), (3, 15)] }

example : start_index = -3 := by decide
example : end_index = 4 := by decide
example :
    (generate_tiles_coordinates (pre_fill_tiles_coordinates []) 0 [1]).length
      = 18 := by decide
example : (generate_tiles_coordinates [] 0 []).length = 16 := by decide

/-! ## Generator lemmas -/

theorem genIter_eq (x y : ℤ) (r : ℕ) :
    genIter x y r = ([(x, y), (x + 1, y), (x + 1, y + 1)], x + 1, y + 1 + 1) ∧
        effectiveDir x r = 1 ∨
      genIter x y r = ([(x, y), (x - 1, y), (x - 1, y + 1)], x - 1, y + 1 + 1) ∧
        effectiveDir x r = 2 ∨
      genIter x y r = ([(x, y)], x, y + 1) ∧
        effectiveDir x r ≠ 1 ∧ effectiveDir x r ≠ 2 := by
  unfold genIter
  split_ifs with h1 h2
  · exact Or.inl ⟨rfl, h1⟩
  · exact Or.inr (Or.inl ⟨rfl, h2⟩)
  · exact Or.inr (Or.inr ⟨rfl, h1, h2⟩)

theorem effectiveDir_one {x : ℤ} {r : ℕ} (h : effectiveDir x r = 1) :
    x < end_index := by
  simp only [effectiveDir] at h
  by_cases he : x ≥ end_index
  · rw [if_pos he] at h
    omega
  · omega

theorem effectiveDir_two {x : ℤ} {r : ℕ} (h : effectiveDir x r = 2) :
    end_index ≤ x ∨ start_index < x := by
  simp only [effectiveDir] at h
  by_cases he : x ≥ end_index
  · exact Or.inl he
  · rw [if_neg he] at h
    by_cases hs : x ≤ start_index
    · rw [if_pos hs] at h
      omega
    · exact Or.inr (by omega)

theorem genIter_length_pos (x y : ℤ) (r : ℕ) : 1 ≤ (genIter x y r).1.length := by
  rcases genIter_eq x y r with ⟨he, _⟩ | ⟨he, _⟩ | ⟨he, _⟩ <;> rw [he] <;> simp

theorem genIter_row_ge (x y : ℤ) (r : ℕ) :
    ∀ t ∈ (genIter x y r).1, y ≤ t.2 ∧ t.2 < (genIter x y r).2.2 := by
  rcases genIter_eq x y r with ⟨he, _⟩ | ⟨he, _⟩ | ⟨he, _⟩ <;> rw [he] <;>
    simp [List.forall_mem_cons] <;> omega

theorem genIter_newY (x y : ℤ) (r : ℕ) : y < (genIter x y r).2.2 := by
  rcases genIter_eq x y r with ⟨he, _⟩ | ⟨he, _⟩ | ⟨he, _⟩
  · rw [he]
    dsimp only
    omega
  · rw [he]
    dsimp only
    omega
  · rw [he]
    dsimp only
    omega

theorem genIter_sorted (x y : ℤ) (r : ℕ) : rowsSorted (genIter x y r).1 := by
  unfold rowsSorted
  rcases genIter_eq x y r with ⟨he, _⟩ | ⟨he, _⟩ | ⟨he, _⟩ <;> rw [he] <;>
    simp [List.pairwise_cons]

theorem genIter_cols {x : ℤ} (hx1 : start_index ≤ x) (hx2 : x ≤ end_index)
    (y : ℤ) (r : ℕ) :
    (∀ t ∈ (genIter x y r).1, start_index ≤ t.1 ∧ t.1 ≤ end_index) ∧
      start_index ≤ (genIter x y r).2.1 ∧ (genIter x y r).2.1 ≤ end_index := by
  have hse : start_index < end_index := by decide
  rcases genIter_eq x y r with ⟨he, hd⟩ | ⟨he, hd⟩ | ⟨he, hd⟩
  · have hxe := effectiveDir_one hd
    rw [he]; simp [List.forall_mem_cons]; omega
  · have hxs := effectiveDir_two hd
    rw [he]; simp [List.forall_mem_cons]; omega
  · rw [he]; simp [List.forall_mem_cons]; omega

theorem genLoop_length (n : ℕ) :
    ∀ (draws : List ℕ) (x y : ℤ), n ≤ (genLoop n draws x y).length := by
  induction n with
  | zero => simp
  | succ n ih =>
    intro draws x y
    have h1 := genIter_length_pos x y (draws.headD 0)
    have h2 := ih draws.tail (genIter x y (draws.headD 0)).2.1
      (genIter x y (draws.headD 0)).2.2
    simp only [genLoop, List.length_append]
    omega

theorem genLoop_row_ge (n : ℕ) :
    ∀ (draws : List ℕ) (x y : ℤ), ∀ t ∈ genLoop n draws x y, y ≤ t.2 := by
  induction n with
  | zero => simp [genLoop]
  | succ n ih =>
    intro draws x y t ht
    simp only [genLoop, List.mem_append] at ht
    rcases ht with ht | ht
    · exact (genIter_row_ge x y (draws.headD 0) t ht).1
    · have h1 := ih draws.tail _ _ t ht
      have h2 := genIter_newY x y (draws.headD 0)
      omega

theorem genLoop_sorted (n : ℕ) :
    ∀ (draws : List ℕ) (x y : ℤ), rowsSorted (genLoop n draws x y) := by
  induction n with
  | zero => intro draws x y; simp [genLoop, rowsSorted]
  | succ n ih =>
    intro draws x y
    unfold rowsSorted
    simp only [genLoop]
    rw [List.pairwise_append]
    refine ⟨genIter_sorted x y _, ih _ _ _, ?_⟩
    intro a ha b hb
    have h1 := (genIter_row_ge x y (draws.headD 0) a ha).2
    have h2 := genLoop_row_ge n draws.tail _ _ b hb
    omega

theorem genLoop_cols (n : ℕ) :
    ∀ (draws : List ℕ) (x y : ℤ), start_index ≤ x → x ≤ end_index →
      ∀ t ∈ genLoop n draws x y, start_index ≤ t.1 ∧ t.1 ≤ end_index := by
  induction n with
  | zero => simp [genLoop]
  | succ n ih =>
    intro draws x y hx1 hx2 t ht
    simp only [genLoop, List.mem_append] at ht
    obtain ⟨hmem, hs1, hs2⟩ := genIter_cols hx1 hx2 y (draws.headD 0)
    rcases ht with ht | ht
    · exact hmem t ht
    · exact ih draws.tail _ _ hs1 hs2 t ht

theorem of_getLast?_mem {α : Type} {l : List α} {c : α}
    (h : l.getLast? = some c) : c ∈ l := by
  rcases List.mem_getLast?_eq_getLast (by simpa using h) with ⟨hne, rfl⟩
  exact List.getLast_mem hne

theorem row_le_getLast {l : List (ℤ × ℤ)} (hs : rowsSorted l) {c : ℤ × ℤ}
    (hc : l.getLast? = some c) : ∀ a ∈ l, a.2 ≤ c.2 := by
  induction l with
  | nil => simp at hc
  | cons b l ih =>
    intro a ha
    rcases List.mem_cons.1 ha with rfl | ha'
    · cases l with
      | nil =>
        simp only [List.getLast?_singleton, Option.some.injEq] at hc
        rw [hc]
      | cons d l' =>
        rw [List.getLast?_cons_cons] at hc
        exact (List.pairwise_cons.1 hs).1 c (of_getLast?_mem hc)
    · cases l with
      | nil => simp at ha'
      | cons d l' =>
        rw [List.getLast?_cons_cons] at hc
        exact ih (List.pairwise_cons.1 hs).2 hc a ha'

/-! ## C1: tile count after a generation pass -/

/-- C1, counterexample: immediately after the startup pre-fill, a single
right-turn draw makes `generate_tiles_coordinates` produce 18 tiles, not
`NB_TILES = 16` — the iteration count of the extend loop is fixed up front while a
turn iteration appends three tiles. -/
theorem generate_count_counterexample :
    ¬ (generate_tiles_coordinates (pre_fill_tiles_coordinates []) 0 [1]).length
        = NB_TILES := by decide

/-- C1 (amended): after any call to the advance step of the generator, the tile
set contains at least `NB_TILES = 16` coordinate entries (turn iterations can
push the count above the target; it is never below). -/
theorem generate_count_ge (tiles : List (ℤ × ℤ)) (y : ℤ) (draws : List ℕ) :
    NB_TILES ≤ (generate_tiles_coordinates tiles y draws).length := by
  simp only [generate_tiles_coordinates, List.length_append]
  have h := genLoop_length (NB_TILES - (tiles.filter fun t => y ≤ t.2).length)
    draws (genSeed (tiles.filter fun t => y ≤ t.2)).1
    (genSeed (tiles.filter fun t => y ≤ t.2)).2
  omega

/-! ## C3: boundary containment of generated columns -/

/-- C3: if every tile of the incoming set has its column inside the corridor
`[start_index, end_index] = [-3, 4]`, then after any advance every tile of
the resulting set (in particular every appended tile) still does: the
forced-turn override keeps the track inside the visible column span. -/
theorem generate_columns_in_corridor (tiles : List (ℤ × ℤ)) (y : ℤ)
    (draws : List ℕ)
    (h : ∀ t ∈ tiles, start_index ≤ t.1 ∧ t.1 ≤ end_index) :
    ∀ t ∈ generate_tiles_coordinates tiles y draws,
      start_index ≤ t.1 ∧ t.1 ≤ end_index := by
  simp only [generate_tiles_coordinates, List.mem_append]
  intro t ht
  have htrim : ∀ a ∈ tiles.filter fun s => y ≤ s.2,
      start_index ≤ a.1 ∧ a.1 ≤ end_index :=
    fun a ha => h a (List.mem_filter.1 ha).1
  rcases ht with ht | ht
  · exact htrim t ht
  · have hseed : start_index ≤ (genSeed (tiles.filter fun s => y ≤ s.2)).1 ∧
        (genSeed (tiles.filter fun s => y ≤ s.2)).1 ≤ end_index := by
      unfold genSeed
      cases hL : (tiles.filter fun s => y ≤ s.2).getLast? with
      | none => constructor <;> decide
      | some c => simpa using htrim c (of_getLast?_mem hL)
    exact genLoop_cols _ draws _ _ hseed.1 hseed.2 t ht

/-- C3, witness: a concrete advance from a corridor-respecting tile set. -/
theorem generate_columns_in_corridor_witness :
    (generate_tiles_coordinates [((4 : ℤ), (0 : ℤ))] 0 [1, 2, 0]).all
        (fun t => decide (start_index ≤ t.1 ∧ t.1 ≤ end_index)) = true := by
  rw [List.all_eq_true]
  intro t ht
  simpa using generate_columns_in_corridor [((4 : ℤ), (0 : ℤ))] 0 [1, 2, 0]
    (by decide) t ht

/-! ## C7: per-iteration emission of the extend loop -/

/-- C7: in one iteration of the extend loop, a right turn at running position
`(col, row)` emits exactly `(col, row)`, `(col+1, row)`, `(col+1, row+1)` and
nets two rows of forward progress; a left turn is the column-decrementing
mirror; a straight step emits exactly `(col, row)` and nets one row. -/
theorem genIter_emission (x y : ℤ) (r : ℕ) :
    (effectiveDir x r = 1 →
        genIter x y r = ([(x, y), (x + 1, y), (x + 1, y + 1)], x + 1, y + 2)) ∧
      (effectiveDir x r = 2 →
        genIter x y r = ([(x, y), (x - 1, y), (x - 1, y + 1)], x - 1, y + 2)) ∧
      (effectiveDir x r = 0 → genIter x y r = ([(x, y)], x, y + 1)) := by
  have h2 : y + 1 + 1 = y + 2 := by omega
  rcases genIter_eq x y r with ⟨he, hd⟩ | ⟨he, hd⟩ | ⟨he, hd⟩
  · exact ⟨fun h => by rw [he, h2], fun h => by omega, fun h => by omega⟩
  · exact ⟨fun h => by omega, fun h => by rw [he, h2], fun h => by omega⟩
  · exact ⟨fun h => absurd h hd.1, fun h => absurd h hd.2, fun h => he⟩

/-- C7, witness: a right turn drawn at the origin. -/
theorem genIter_emission_witness :
    genIter 0 0 1 = ([(0, 0), (1, 0), (1, 1)], 1, 0 + 2) :=
  (genIter_emission 0 0 1).1 (by decide)

/-! ## C10: rows are non-decreasing in storage order -/

/-- C10: the pre-fill emits rows 0..9 in order, and a generation pass (trim,
then extend) maps a row-sorted tile list to a row-sorted tile list — the
unstated invariant behind the early exit of the collision check. -/
theorem generate_preserves_rowsSorted (tiles : List (ℤ × ℤ)) (y : ℤ)
    (draws : List ℕ) (hs : rowsSorted tiles) :
    rowsSorted (generate_tiles_coordinates tiles y draws) ∧
      rowsSorted (pre_fill_tiles_coordinates []) := by
  refine ⟨?_, by decide⟩
  have hts : rowsSorted (tiles.filter fun t => y ≤ t.2) :=
    List.Pairwise.sublist (List.filter_sublist tiles) hs
  unfold rowsSorted
  simp only [generate_tiles_coordinates]
  rw [List.pairwise_append]
  refine ⟨hts, genLoop_sorted _ _ _ _, ?_⟩
  intro a ha b hb
  have hb' := genLoop_row_ge _ draws _ _ b hb
  have ha' : a.2 < (genSeed (tiles.filter fun t => y ≤ t.2)).2 := by
    unfold genSeed
    cases hL : (tiles.filter fun t => y ≤ t.2).getLast? with
    | none =>
      rw [List.getLast?_eq_none_iff] at hL
      rw [hL] at ha
      simp at ha
    | some c =>
      have := row_le_getLast hts hL a ha
      simp only []
      omega
  omega

/-- C10, witness: a concrete sorted tile set stays sorted through a pass. -/
theorem generate_preserves_rowsSorted_witness :
    rowsSorted (generate_tiles_coordinates [((0 : ℤ), (0 : ℤ)), (0, 1)] 1 [2]) ∧
      rowsSorted (pre_fill_tiles_coordinates []) :=
  generate_preserves_rowsSorted [((0 : ℤ), (0 : ℤ)), (0, 1)] 1 [2] (by decide)

/-! ## C8: reset restores the initial state -/

/-- C8: `reset_game` zeroes the row counter, both offsets and the horizontal
speed, clears the game-over flag, and rebuilds the tile set as the 10-tile
pre-fill (column 0, rows 0–9) followed by one generation pass. -/
theorem reset_game_spec (w : MainWidget) (draws : List ℕ) :
    (reset_game w draws).current_y_loop = 0 ∧
      (reset_game w draws).current_offset_y = 0 ∧
      (reset_game w draws).current_offset_x = 0 ∧
      (reset_game w draws).current_speed_x = 0 ∧
      (reset_game w draws).state_game_over = false ∧
      (reset_game w draws).tiles_coordinates =
        generate_tiles_coordinates (pre_fill_tiles_coordinates []) 0 draws ∧
      pre_fill_tiles_coordinates [] =
        [(0, 0), (0, 1), (0, 2), (0, 3), (0, 4),
         (0, 5), (0, 6), (0, 7), (0, 8), (0, 9)] :=
  ⟨rfl, rfl, rfl, rfl, rfl, rfl, by decide⟩

/-! ## C6: the projection computes exactly the documented formula -/

/-- C6: for a configuration with positive vanishing-point height and
viewport height, `transform_perspective` returns exactly the truncation
toward zero of the formula in the spec (clamped linear depth, quartic factor). -/
theorem transform_perspective_matches_spec (w : MainWidget) (x y : ℚ)
    (_hp : 0 < w.perspective_point_y) (_hh : 0 < w.height) :
    transform_perspective w x y = transformPerspectiveSpec w x y := by
  simp only [transform_perspective, transformPerspectiveSpec, tr_x_exact,
    tr_y_exact, factor_y]
  have hmin : (if y * w.perspective_point_y / w.height > w.perspective_point_y
      then w.perspective_point_y
      else y * w.perspective_point_y / w.height) =
      min (y * w.perspective_point_y / w.height) w.perspective_point_y := by
    rcases le_or_lt (y * w.perspective_point_y / w.height)
        w.perspective_point_y with h | h
    · rw [if_neg (not_lt.2 h), min_eq_left h]
    · rw [if_pos h, min_eq_right h.le]
  rw [hmin]

/-- C6, witness: the equality at a concrete configuration and input. -/
theorem transform_perspective_matches_spec_witness :
    transform_perspective demoWidget 123 45 =
      transformPerspectiveSpec demoWidget 123 45 :=
  transform_perspective_matches_spec demoWidget 123 45 (by decide) (by decide)

/-! ## C5: projection monotonicity toward the vanishing point -/

/-- C5, counterexample: at `worldX` equal to the vanishing-point abscissa —
which the claim quantifies over — the projected horizontal distance is `0`
at every depth, so it does not strictly decrease as `worldY` rises. -/
theorem projection_monotonicity_counterexample :
    ¬ (|((transform_perspective demoWidget 450 100).1 : ℚ) -
          demoWidget.perspective_point_x| <
        |((transform_perspective demoWidget 450 0).1 : ℚ) -
          demoWidget.perspective_point_x|) := by
  have h100 : (transform_perspective demoWidget 450 100).1 = 450 := by
    norm_num [transform_perspective, tr_x_exact, factor_y, demoWidget, pyInt]
  have h0 : (transform_perspective demoWidget 450 0).1 = 450 := by
    norm_num [transform_perspective, tr_x_exact, factor_y, demoWidget, pyInt]
  rw [h100, h0]
  exact lt_irrefl _

/-- C5 (amended): for `worldX` distinct from the vanishing-point abscissa and
measured on the exact pre-truncation screen abscissa, increasing `worldY`
toward the vanishing point strictly decreases the horizontal distance from
the vanishing point; with `worldX = vanishingPointX`, or after the `int()`
truncation, the decrease is only non-strict. -/
theorem tr_x_exact_strict_convergence (w : MainWidget) (x y1 y2 : ℚ)
    (hp : 0 < w.perspective_point_y) (hh : 0 < w.height)
    (hx : x ≠ w.perspective_point_x) (h12 : y1 < y2) (hy2 : y2 ≤ w.height) :
    |tr_x_exact w x y2 - w.perspective_point_x| <
      |tr_x_exact w x y1 - w.perspective_point_x| := by
  have key : ∀ y : ℚ, y ≤ w.height → factor_y w y =
      ((w.perspective_point_y - y * w.perspective_point_y / w.height) /
        w.perspective_point_y) ^ 4 := by
    intro y hy
    simp only [factor_y]
    have hle : y * w.perspective_point_y / w.height ≤ w.perspective_point_y := by
      rw [div_le_iff₀ hh]
      calc y * w.perspective_point_y
          ≤ w.height * w.perspective_point_y :=
            mul_le_mul_of_nonneg_right hy hp.le
        _ = w.perspective_point_y * w.height := mul_comm _ _
    have hgt : ¬ (y * w.perspective_point_y / w.height >
        w.perspective_point_y) := not_lt.2 hle
    rw [if_neg hgt]
  have hlin : y1 * w.perspective_point_y / w.height <
      y2 * w.perspective_point_y / w.height := by
    rw [div_lt_div_iff_of_pos_right hh]
    exact mul_lt_mul_of_pos_right h12 hp
  have hd2 : 0 ≤ w.perspective_point_y - y2 * w.perspective_point_y / w.height := by
    have hle : y2 * w.perspective_point_y / w.height ≤ w.perspective_point_y := by
      rw [div_le_iff₀ hh]
      calc y2 * w.perspective_point_y
          ≤ w.height * w.perspective_point_y :=
            mul_le_mul_of_nonneg_right hy2 hp.le
        _ = w.perspective_point_y * w.height := mul_comm _ _
    linarith
  have hfact : factor_y w y2 < factor_y w y1 := by
    rw [key y1 (by linarith), key y2 hy2]
    refine pow_lt_pow_left₀ ?_ (div_nonneg hd2 hp.le) (by norm_num)
    rw [div_lt_div_iff_of_pos_right hp]
    linarith
  have hf2 : 0 ≤ factor_y w y2 := by
    rw [key y2 hy2]
    exact pow_nonneg (div_nonneg hd2 hp.le) 4
  have habs : ∀ y : ℚ, |tr_x_exact w x y - w.perspective_point_x| =
      |x - w.perspective_point_x| * |factor_y w y| := by
    intro y
    unfold tr_x_exact
    rw [add_sub_cancel_left, abs_mul]
  rw [habs y1, habs y2, abs_of_nonneg hf2,
    abs_of_nonneg (le_trans hf2 hfact.le)]
  exact mul_lt_mul_of_pos_left hfact (abs_pos.2 (sub_ne_zero.2 hx))

/-- C5, witness: strict convergence at a concrete off-center column. -/
theorem tr_x_exact_strict_convergence_witness :
    |tr_x_exact demoWidget 0 200 - demoWidget.perspective_point_x| <
      |tr_x_exact demoWidget 0 0 - demoWidget.perspective_point_x| :=
  tr_x_exact_strict_convergence demoWidget 0 0 200 (by decide) (by decide)
    (by decide) (by decide) (by decide)

/-! ## C4: the collision check against its specification -/

/-- C4, counterexample: with an out-of-order tile list — `(0, 5)` stored
before `(0, 0)` — the `return False` of the source on the first look-ahead tile
aborts the whole scan, so the check misses the later tile `(0, 0)` that does
contain a ship vertex; look-ahead tiles are not merely "skipped". -/
theorem check_ship_collisions_counterexample :
    check_ship_collisions
        { demoWidget with tiles_coordinates := [(0, 5), (0, 0)] } = false ∧
      specSupported { demoWidget with tiles_coordinates := [(0, 5), (0, 0)] } := by
  constructor
  · norm_num [check_ship_collisions, checkCollisionsAux, demoWidget]
  · unfold specSupported
    refine ⟨(0, 0), by norm_num, by norm_num [demoWidget], ?_⟩
    norm_num [check_ship_collision_with_tile, get_tile_coordinates,
      get_line_x_from_index, get_line_y_from_index, demoWidget,
      V_LINES_SPACING, H_LINES_SPACING]

theorem checkCollisionsAux_iff (w : MainWidget) (l : List (ℤ × ℤ))
    (hs : rowsSorted l) :
    checkCollisionsAux w l = true ↔
      ∃ t ∈ l, t.2 ≤ w.current_y_loop + 1 ∧
        check_ship_collision_with_tile w t.1 t.2 = true := by
  induction l with
  | nil => simp [checkCollisionsAux]
  | cons t rest ih =>
    unfold rowsSorted at hs
    rw [List.pairwise_cons] at hs
    obtain ⟨hhead, htail⟩ := hs
    unfold checkCollisionsAux
    by_cases h1 : t.2 > w.current_y_loop + 1
    · rw [if_pos h1]
      constructor
      · intro hf
        exact absurd hf (by simp)
      · rintro ⟨s, hsmem, hrow, -⟩
        rcases List.mem_cons.1 hsmem with rfl | hsr
        · omega
        · have := hhead s hsr
          omega
    · rw [if_neg h1]
      by_cases h2 : check_ship_collision_with_tile w t.1 t.2 = true
      · simp only [h2, if_true, true_iff]
        exact ⟨t, List.mem_cons_self t rest, by omega, h2⟩
      · simp only [h2, if_false, Bool.false_eq_true]
        rw [ih htail]
        constructor
        · rintro ⟨s, hsmem, hrow, hcol⟩
          exact ⟨s, List.mem_cons_of_mem t hsmem, hrow, hcol⟩
        · rintro ⟨s, hsmem, hrow, hcol⟩
          rcases List.mem_cons.1 hsmem with rfl | hsr
          · exact absurd hcol h2
          · exact ⟨s, hsr, hrow, hcol⟩

/-- C4 (amended): for a tile list whose rows are non-decreasing in storage
order — the invariant the generator maintains — the collision check returns
true iff some stored tile with row at most `current_y_loop + 1` has world
bounds containing one of the three ship vertices.  For unsorted lists the
equivalence fails, because the check returns false outright at the first
look-ahead tile instead of skipping it. -/
theorem check_ship_collisions_iff (w : MainWidget)
    (hs : rowsSorted w.tiles_coordinates) :
    check_ship_collisions w = true ↔ specSupported w :=
  checkCollisionsAux_iff w w.tiles_coordinates hs

/-- C4, witness: the equivalence at a concrete sorted state (and the
supported side indeed holds there). -/
theorem check_ship_collisions_iff_witness :
    (check_ship_collisions
        { demoWidget with tiles_coordinates := [(0, 0), (0, 5)] } = true ↔
      specSupported { demoWidget with tiles_coordinates := [(0, 0), (0, 5)] }) :=
  check_ship_collisions_iff
    { demoWidget with tiles_coordinates := [(0, 0), (0, 5)] } (by decide)

/-! ## C2: the game-over transition of the per-frame update -/

/-- C2, counterexample: before the game has ever started
(`state_game_has_started = false`), with a full 16-tile track at column 3 so
that `update_tiles` raises no error, the support check finds no tile under
the centred ship and `update` still transitions into GameOver — the guard in
the source tests only `state_game_over`, never the started flag. -/
theorem update_not_started_counterexample :
    offTrackWidget.state_game_has_started = false ∧
      offTrackWidget.state_game_over = false ∧
      (update offTrackWidget 1 []).map MainWidget.state_game_over =
        some true := by
  refine ⟨rfl, rfl, ?_⟩
  norm_num [update, update_tiles, update_ship, updatePhysics,
    check_ship_collisions, checkCollisionsAux, check_ship_collision_with_tile,
    get_tile_coordinates, get_line_x_from_index, get_line_y_from_index,
    offTrackWidget, demoWidget, NB_TILES, V_LINES_SPACING, H_LINES_SPACING,
    SHIP_WIDTH, SHIP_HEIGHT, SHIP_BASE_Y]

theorem crossRows_game_over (k : ℕ) :
    ∀ (w : MainWidget) (draws : List (List ℕ)),
      (crossRows k w draws).state_game_over = w.state_game_over := by
  induction k with
  | zero => intro w draws; rfl
  | succ k ih =>
    intro w draws
    unfold crossRows
    by_cases h : H_LINES_SPACING * w.height ≤ w.current_offset_y
    · rw [if_pos h, ih]
    · rw [if_neg h]

theorem updatePhysics_game_over (w : MainWidget) (dt : ℚ)
    (draws : List (List ℕ)) :
    (updatePhysics w dt draws).state_game_over = w.state_game_over := by
  unfold updatePhysics
  by_cases h : (!w.state_game_over && w.state_game_has_started) = true
  · rw [if_pos h]
    exact crossRows_game_over _ _ _
  · rw [if_neg h]

/-- C2 (amended): when the incoming tile set has at least `NB_TILES` entries
— so that `update_tiles` raises no `IndexError` before the check — `update`
ends in GameOver exactly when the state already was GameOver or the
post-physics support check is false, regardless of whether the game has
started.  No transition occurs when the check returns true or when the state
is already GameOver, but the NotStarted state does not prevent the
transition; with fewer than `NB_TILES` entries the frame aborts before the
game-over check and no transition occurs either. -/
theorem update_game_over_eq (w : MainWidget) (dt : ℚ)
    (draws : List (List ℕ)) (hlen : NB_TILES ≤ w.tiles_coordinates.length) :
    (update w dt draws).map MainWidget.state_game_over =
      some (w.state_game_over ||
        !check_ship_collisions (updatePhysics (update_ship w) dt draws)) := by
  unfold update update_tiles
  rw [if_neg (by omega)]
  have hpres : (updatePhysics (update_ship w) dt draws).state_game_over =
      w.state_game_over := by
    rw [updatePhysics_game_over]
    rfl
  by_cases hc : check_ship_collisions (updatePhysics (update_ship w) dt draws)
  · cases hgo : w.state_game_over <;>
      simp [hc, hpres, hgo]
  · cases hgo : w.state_game_over <;>
      simp [Bool.not_eq_true] at hc <;>
      simp [hc, hpres, hgo]

/-- C2, witness: the transition equation evaluated at the off-track
not-started state with its full 16-tile list. -/
theorem update_game_over_eq_witness :
    (update offTrackWidget 1 []).map MainWidget.state_game_over =
      some (offTrackWidget.state_game_over ||
        !check_ship_collisions
          (updatePhysics (update_ship offTrackWidget) 1 [])) :=
  update_game_over_eq offTrackWidget 1 [] (by decide)

/-! ## C9: frame-rate independence of the forward-motion step -/

theorem drainFuel_spec (k : ℕ) :
    ∀ (s o : ℚ) (n : ℤ), 0 < s → 0 ≤ o → (⌊o / s⌋).toNat ≤ k →
      drainFuel k s o n = (o - s * ⌊o / s⌋, n + ⌊o / s⌋) := by
  induction k with
  | zero =>
    intro s o n hs ho hk
    have h0 : 0 ≤ ⌊o / s⌋ := Int.floor_nonneg.2 (div_nonneg ho hs.le)
    have hfl : ⌊o / s⌋ = 0 := by omega
    rw [hfl]
    simp [drainFuel]
  | succ k ih =>
    intro s o n hs ho hk
    by_cases hso : s ≤ o
    · have h1 : (1 : ℚ) ≤ o / s := (le_div_iff₀ hs).2 (by linarith)
      have hfl1 : 1 ≤ ⌊o / s⌋ := Int.le_floor.2 (by exact_mod_cast h1)
      have hdiv : (o - s) / s = o / s - 1 := by
        rw [sub_div, div_self (ne_of_gt hs)]
      have hsub : ⌊(o - s) / s⌋ = ⌊o / s⌋ - 1 := by
        rw [hdiv, Int.floor_sub_one]
      have hk' : (⌊(o - s) / s⌋).toNat ≤ k := by
        rw [hsub]
        omega
      simp only [drainFuel]
      rw [if_pos hso, ih s (o - s) (n + 1) hs (by linarith) hk', hsub]
      simp only [Prod.mk.injEq]
      constructor
      · push_cast
        ring
      · ring
    · have hlt : o / s < 1 := (div_lt_one hs).2 (by linarith)
      have hfl0 : ⌊o / s⌋ = 0 :=
        Int.floor_eq_zero_iff.2 (Set.mem_Ico.2 ⟨div_nonneg ho hs.le, hlt⟩)
      simp only [drainFuel]
      rw [if_neg hso, hfl0]
      simp

theorem whileDrain_spec (s o : ℚ) (n : ℤ) (hs : 0 < s) (ho : 0 ≤ o) :
    whileDrain s o n = (o - s * ⌊o / s⌋, n + ⌊o / s⌋) :=
  drainFuel_spec _ s o n hs ho le_rfl

theorem whileDrain_add (s o a : ℚ) (n : ℤ) (hs : 0 < s) (ho : 0 ≤ o)
    (ha : 0 ≤ a) :
    whileDrain s ((whileDrain s o n).1 + a) (whileDrain s o n).2 =
      whileDrain s (o + a) n := by
  have hof : 0 ≤ o - s * ⌊o / s⌋ := by
    have h1 : (⌊o / s⌋ : ℚ) ≤ o / s := Int.floor_le _
    have h2 : s * (⌊o / s⌋ : ℚ) ≤ s * (o / s) :=
      mul_le_mul_of_nonneg_left h1 hs.le
    have h3 : s * (o / s) = o := by
      field_simp
    linarith
  rw [whileDrain_spec s o n hs ho]
  dsimp only
  rw [whileDrain_spec s _ _ hs (by linarith),
    whileDrain_spec s (o + a) n hs (by linarith)]
  have hev : (o - s * ⌊o / s⌋ + a) / s = (o + a) / s - (⌊o / s⌋ : ℤ) := by
    field_simp
    ring
  have hsplit : ⌊(o - s * ⌊o / s⌋ + a) / s⌋ = ⌊(o + a) / s⌋ - ⌊o / s⌋ := by
    rw [hev, Int.floor_sub_int]
  rw [hsplit]
  simp only [Prod.mk.injEq]
  constructor
  · push_cast
    ring
  · ring

theorem runMotion_closed (height : ℚ) (hh : 0 < height) (dts : List ℚ) :
    ∀ (o : ℚ) (n : ℤ), 0 ≤ o → (∀ dt ∈ dts, 0 ≤ dt) →
      runMotion height (whileDrain (H_LINES_SPACING * height) o n) dts =
        whileDrain (H_LINES_SPACING * height)
          (o + SPEED * height / 100 * 60 * dts.sum) n := by
  have hsp : 0 < H_LINES_SPACING * height :=
    mul_pos (by norm_num [H_LINES_SPACING]) hh
  induction dts with
  | nil =>
    intro o n ho _
    simp [runMotion]
  | cons dt rest ih =>
    intro o n ho hnn
    have hdt : 0 ≤ dt := hnn dt (List.mem_cons_self dt rest)
    have hrest : ∀ d ∈ rest, 0 ≤ d := fun d hd =>
      hnn d (List.mem_cons_of_mem dt hd)
    have ha : 0 ≤ SPEED * height / 100 * (dt * 60) :=
      mul_nonneg
        (div_nonneg (mul_nonneg (by norm_num [SPEED]) hh.le) (by norm_num))
        (mul_nonneg hdt (by norm_num))
    simp only [runMotion, List.foldl_cons]
    have hstep :
        motionStep height (whileDrain (H_LINES_SPACING * height) o n) dt =
          whileDrain (H_LINES_SPACING * height)
            (o + SPEED * height / 100 * (dt * 60)) n := by
      unfold motionStep
      exact whileDrain_add _ o _ n hsp ho ha
    rw [hstep]
    have hrec := ih (o + SPEED * height / 100 * (dt * 60)) n
      (by linarith) hrest
    simp only [runMotion] at hrec
    rw [hrec]
    congr 1
    rw [List.sum_cons]
    ring

/-- C9: running the forward-motion step of the per-frame update (offset
accumulation plus the row-crossing loop) from a Running-state camera
(offset inside one row spacing) over any two non-negative frame-time lists
with equal total elapsed time yields the same final row counter, well within
the claimed one-row tolerance. -/
theorem motion_frame_rate_independence (height o : ℚ) (n : ℤ)
    (dts1 dts2 : List ℚ) (hh : 0 < height) (ho0 : 0 ≤ o)
    (hos : o < H_LINES_SPACING * height)
    (h1 : ∀ dt ∈ dts1, 0 ≤ dt) (h2 : ∀ dt ∈ dts2, 0 ≤ dt)
    (hsum : dts1.sum = dts2.sum) :
    ((runMotion height (o, n) dts1).2 -
        (runMotion height (o, n) dts2).2).natAbs ≤ 1 := by
  have hsp : 0 < H_LINES_SPACING * height :=
    mul_pos (by norm_num [H_LINES_SPACING]) hh
  have hfl0 : ⌊o / (H_LINES_SPACING * height)⌋ = 0 :=
    Int.floor_eq_zero_iff.2
      (Set.mem_Ico.2 ⟨div_nonneg ho0 hsp.le, (div_lt_one hsp).2 hos⟩)
  have hdrain : whileDrain (H_LINES_SPACING * height) o n = (o, n) := by
    unfold whileDrain rowFuel
    rw [hfl0]
    rfl
  have e1 := runMotion_closed height hh dts1 o n ho0 h1
  have e2 := runMotion_closed height hh dts2 o n ho0 h2
  rw [hdrain] at e1 e2
  rw [e1, e2, hsum]
  simp

/-- C9, witness: two 120 Hz frames against one 60 Hz frame. -/
theorem motion_frame_rate_independence_witness :
    ((runMotion 400 ((0 : ℚ), (0 : ℤ)) [1/120, 1/120]).2 -
        (runMotion 400 ((0 : ℚ), (0 : ℤ)) [1/60]).2).natAbs ≤ 1 :=
  motion_frame_rate_independence 400 0 0 [1/120, 1/120] [1/60]
    (by norm_num) le_rfl (by norm_num [H_LINES_SPACING])
    (by
      intro dt hdt
      simp only [List.mem_cons, List.not_mem_nil, or_false] at hdt
      rcases hdt with rfl | rfl <;> norm_num)
    (by
      intro dt hdt
      simp only [List.mem_cons, List.not_mem_nil, or_false] at hdt
      rw [hdt]
      norm_num)
    (by norm_num)

theorem crossRows_offset_loop (k : ℕ) :
    ∀ (w : MainWidget) (draws : List (List ℕ)),
      ((crossRows k w draws).current_offset_y,
        (crossRows k w draws).current_y_loop) =
        drainFuel k (H_LINES_SPACING * w.height) w.current_offset_y
          w.current_y_loop := by
  induction k with
  | zero => intro w draws; rfl
  | succ k ih =>
    intro w draws
    simp only [crossRows, drainFuel]
    by_cases h : H_LINES_SPACING * w.height ≤ w.current_offset_y
    · rw [if_pos h, if_pos h, ih]
    · rw [if_neg h, if_neg h]

/-- The forward-motion fragment `motionStep`, over which frame-rate
independence is stated, is exactly what `updatePhysics` does to the
offset/row pair when the game is running. -/
theorem updatePhysics_motion (w : MainWidget) (dt : ℚ)
    (draws : List (List ℕ)) (hgo : w.state_game_over = false)
    (hst : w.state_game_has_started = true) :
    ((updatePhysics w dt draws).current_offset_y,
      (updatePhysics w dt draws).current_y_loop) =
      motionStep w.height (w.current_offset_y, w.current_y_loop) dt := by
  unfold updatePhysics
  rw [hgo, hst]
  simp only [Bool.not_false, Bool.and_self, if_true]
  exact crossRows_offset_loop _ _ _

end Galaxy
